import Mathlib

/-!
Verification of the Arrow/Parquet columnar layer of GDAL
(src/ogr/ogrsf_frmts/arrow_common/ograrrowlayer.hpp) against its
natural-language specification.

The C++ code is shallowly embedded: Arrow list arrays (offset-based) are
modelled as nested Lean lists, C++ doubles as rationals (`Rat`), machine
integers as `Int`/`Nat` with explicit bounds where overflow matters, and
fallible code as `Option`.  Functions keep the names of the C++ functions
they embed.  A few collaborators of the file live elsewhere in the GDAL
tree (OGRWKBGetBoundingBox, OGRGeometryFactory::createFromWkb,
OGRAppendBuffer::GetPtrForNewBytes, OGRWKTToWKBTranslator,
InvalidateCachedBatches); those are modelled from the spec and marked as
such in their doc comments.
-/

namespace OGRArrow

/-! ## Comparison operators of the SWQ predicate trees (ogr_swq.h) -/

/-- The comparison/null-check operators that reach the Arrow layer
(SWQ_EQ, SWQ_NE, SWQ_LT, SWQ_LE, SWQ_GT, SWQ_GE, SWQ_ISNULL and the
derived SWQ_ISNOTNULL of ograrrowlayer.hpp line 43). -/
inductive SWQOp where
  | EQ | NE | LT | LE | GT | GE | ISNULL | ISNOTNULL
deriving DecidableEq, Repr

/-- IsComparisonOp (ograrrowlayer.hpp:2566). -/
def IsComparisonOp : SWQOp → Bool
  | .EQ | .NE | .LT | .LE | .GT | .GE => true
  | _ => false

/-! ## OGR field model (Type Mapper output) -/

/-- OGR semantic field types used by this layer. -/
inductive OGRFieldType where
  | OFTInteger | OFTIntegerList | OFTInteger64 | OFTInteger64List
  | OFTReal | OFTRealList | OFTString | OFTStringList
  | OFTBinary | OFTDate | OFTTime | OFTDateTime
deriving DecidableEq, Repr

/-- OGR field subtypes used by this layer. -/
inductive OGRFieldSubType where
  | OFSTNone | OFSTBoolean | OFSTInt16 | OFSTFloat32 | OFSTJSON
deriving DecidableEq, Repr

/-- Arrow source type ids (arrow::Type) restricted to the scalar kinds the
switch of MapArrowTypeToOGR dispatches on.  FIXED_SIZE_BINARY carries its
byte width, DECIMAL128/256 carry precision and scale, as those parameters
feed the mapping. -/
inductive ArrowType where
  | NA
  | BOOL
  | UINT8 | INT8 | UINT16 | INT16
  | UINT32 | INT32 | UINT64 | INT64
  | HALF_FLOAT | FLOAT | DOUBLE
  | STRING | LARGE_STRING
  | BINARY | LARGE_BINARY
  | FIXED_SIZE_BINARY (byteWidth : Int)
  | DATE32 | DATE64
  | TIME32 | TIME64
  | DECIMAL128 (precision scale : Int)
  | DECIMAL256 (precision scale : Int)
  | INTERVAL_MONTHS | INTERVAL_DAY_TIME
  | SPARSE_UNION | DENSE_UNION
  | DICTIONARY | EXTENSION | DURATION
  | LARGE_LIST | INTERVAL_MONTH_DAY_NANO | RUN_END_ENCODED
  | MAX_ID
deriving DecidableEq, Repr

/-- The OGR field descriptor data produced by the Type Mapper: semantic
type, subtype, and the width/precision attributes (0 when unset, as in a
fresh OGRFieldDefn). -/
structure MappedField where
  eType : OGRFieldType
  eSubType : OGRFieldSubType := .OFSTNone
  width : Int := 0
  precision : Int := 0
deriving DecidableEq, Repr

/-- OGRArrowLayer::MapArrowTypeToOGR (ograrrowlayer.hpp:227-505), the
scalar branches of the switch on the Arrow type id.  Returns the mapped
field descriptor, or none when the field is of unhandled type and is
dropped with a warning (bTypeOK = false).  The NA branch leaves the
caller-initialized OFTString in place (CreateFieldFromSchema line 517). -/
def MapArrowTypeToOGR : ArrowType → Option MappedField
  | .NA => some { eType := .OFTString }
  | .BOOL => some { eType := .OFTInteger, eSubType := .OFSTBoolean }
  | .UINT8 => some { eType := .OFTInteger }
  | .INT8 => some { eType := .OFTInteger }
  | .UINT16 => some { eType := .OFTInteger }
  | .INT16 => some { eType := .OFTInteger, eSubType := .OFSTInt16 }
  | .UINT32 => some { eType := .OFTInteger64 }
  | .INT32 => some { eType := .OFTInteger }
  | .UINT64 => some { eType := .OFTReal }
  | .INT64 => some { eType := .OFTInteger64 }
  | .HALF_FLOAT => some { eType := .OFTReal, eSubType := .OFSTFloat32 }
  | .FLOAT => some { eType := .OFTReal, eSubType := .OFSTFloat32 }
  | .DOUBLE => some { eType := .OFTReal }
  | .STRING => some { eType := .OFTString }
  | .LARGE_STRING => some { eType := .OFTString }
  | .BINARY => some { eType := .OFTBinary }
  | .LARGE_BINARY => some { eType := .OFTBinary }
  | .FIXED_SIZE_BINARY w => some { eType := .OFTBinary, width := w }
  | .DATE32 => some { eType := .OFTDate }
  | .DATE64 => some { eType := .OFTDate }
  | .TIME32 => some { eType := .OFTTime }
  | .TIME64 => some { eType := .OFTInteger64 }
  | .DECIMAL128 p s => some { eType := .OFTReal, width := p, precision := s }
  | .DECIMAL256 p s => some { eType := .OFTReal, width := p, precision := s }
  | .INTERVAL_MONTHS => none
  | .INTERVAL_DAY_TIME => none
  | .SPARSE_UNION => none
  | .DENSE_UNION => none
  | .DICTIONARY => none
  | .EXTENSION => none
  | .DURATION => none
  | .LARGE_LIST => none
  | .INTERVAL_MONTH_DAY_NANO => none
  | .RUN_END_ENCODED => none
  | .MAX_ID => none

/-- The branches of the MapArrowTypeToOGR switch grouped under the
"unhandled types" comment (ograrrowlayer.hpp:418-439): they warn and set
bTypeOK = false so the field is dropped. -/
def IsUnhandledArrowType : ArrowType → Bool
  | .INTERVAL_MONTHS | .INTERVAL_DAY_TIME | .SPARSE_UNION | .DENSE_UNION
  | .DICTIONARY | .EXTENSION | .DURATION | .LARGE_LIST
  | .INTERVAL_MONTH_DAY_NANO | .RUN_END_ENCODED | .MAX_ID => true
  | _ => false

/-- Schema side effect of a successful mapping (ograrrowlayer.hpp:442-502):
a mapped field is appended to the feature definition in encounter order;
a dropped field leaves the schema untouched. -/
def AddFieldDefn (schema : List MappedField) (t : ArrowType) :
    List MappedField :=
  match MapArrowTypeToOGR t with
  | some f => schema ++ [f]
  | none => schema

/-! ## Geometry encoding classifier (C10) -/

/-- The shape data of an Arrow fixed_size_list type that IsPointType
inspects: the list size (the coordinate dimensionality), the name of the
inner value field, and whether the value type is DOUBLE. -/
structure FixedSizeListShape where
  listSize : Int
  valueFieldName : String
  valueTypeIsDouble : Bool
deriving DecidableEq, Repr

/-- IsPointType (ograrrowlayer.hpp:711-747) on a fixed_size_list shape.
Takes the caller's current hasZ/hasM flags (passed by reference in C++)
and returns (accepted, hasZOut, hasMOut).  For list size 3 with an inner
value field named neither "xyz" nor "xym", no branch assigns the flags, so
they keep their input values. -/
def IsPointType (t : FixedSizeListShape) (bHasZ bHasM : Bool) :
    Bool × Bool × Bool :=
  if t.listSize = 2 then
    (t.valueTypeIsDouble, false, false)
  else if t.listSize = 3 then
    if t.valueFieldName = "xym" then (t.valueTypeIsDouble, false, true)
    else if t.valueFieldName = "xyz" then (t.valueTypeIsDouble, true, false)
    else (t.valueTypeIsDouble, bHasZ, bHasM)
  else if t.listSize = 4 then
    (t.valueTypeIsDouble, true, true)
  else
    (false, bHasZ, bHasM)

/-- The geometry type modifier outcome for a geometry field: the base point
type plus Z/M dimensionality flags (OGR_GT_SetModifier on wkbPoint). -/
structure PointGeomType where
  hasZ : Bool
  hasM : Bool
deriving DecidableEq, Repr

/-- The "geoarrow.point" branch of OGRArrowLayer::IsValidGeometryEncoding
(ograrrowlayer.hpp:828-845): bHasZ and bHasM are initialized to false,
IsPointType is consulted, and on acceptance the geometry type is wkbPoint
with the resulting Z/M modifiers.  Returns none when the shape is refused
(the field is then handled as a regular field). -/
def IsValidGeometryEncodingPoint (t : FixedSizeListShape) :
    Option PointGeomType :=
  match IsPointType t false false with
  | (true, z, m) => some { hasZ := z, hasM := m }
  | (false, _, _) => none

/-! ## Envelopes (OGREnvelope)

Coordinates (C++ doubles) are modelled as rationals.  An OGREnvelope is
either uninitialized (none) or carries its four bounds; Merge on an
uninitialized envelope adopts the point, otherwise takes min/max, which is
exactly the behaviour of OGREnvelope::Merge with the infinite initial
bounds. -/

/-- An initialized OGREnvelope. -/
structure Env where
  minX : Rat
  maxX : Rat
  minY : Rat
  maxY : Rat
deriving DecidableEq, Repr

/-- A possibly-uninitialized OGREnvelope (IsInit() false ⇔ none). -/
abbrev OEnv := Option Env

/-- A 2D coordinate pair. -/
abbrev Pt := Rat × Rat

/-- The degenerate envelope of one point. -/
def ptEnv (p : Pt) : Env :=
  ⟨p.1, p.1, p.2, p.2⟩

/-- Union of two initialized envelopes (componentwise min/max). -/
def Env.union (a b : Env) : Env :=
  ⟨min a.minX b.minX, max a.maxX b.maxX, min a.minY b.minY, max a.maxY b.maxY⟩

/-- Union with uninitialized envelopes as identity. -/
def OEnv.union : OEnv → OEnv → OEnv
  | none, b => b
  | some a, none => some a
  | some a, some b => some (a.union b)

/-- OGREnvelope::Merge(x, y): merge one coordinate pair into a
possibly-uninitialized envelope. -/
def Env.mergePt (a : OEnv) (p : Pt) : OEnv :=
  match a with
  | none => some (ptEnv p)
  | some e => some (e.union (ptEnv p))

/-- Merge a run of coordinate pairs (the per-ring point loop). -/
def Env.mergeRing (a : OEnv) (ring : List Pt) : OEnv :=
  ring.foldl Env.mergePt a

/-- The envelope of a coordinate run. -/
def ringEnv (ring : List Pt) : OEnv :=
  Env.mergeRing none ring

/-- OGREnvelope::Intersects. -/
def Env.intersects (a b : Env) : Bool :=
  a.minX ≤ b.maxX && a.maxX ≥ b.minX && a.minY ≤ b.maxY && a.maxY ≥ b.minY

/-- Membership of a point in an initialized envelope. -/
def Env.containsPt (e : Env) (p : Pt) : Bool :=
  e.minX ≤ p.1 && p.1 ≤ e.maxX && e.minY ≤ p.2 && p.2 ≤ e.maxY

/-! ## GeoArrow multipolygon cells and the two extent passes (C4)

An Arrow GeoArrow-multipolygon column stores, per row, a triply nested
list of fixed-size double lists: parts, rings per part, points per ring.  The offset-based Arrow list arrays are modelled as
nested Lean lists; only the X/Y coordinates participate in envelopes. -/

/-- A ring: a list of coordinate pairs. -/
abbrev Ring := List Pt

/-- A polygon part: its rings (first ring = exterior ring). -/
abbrev Part := List Ring

/-- A multipolygon cell: its polygon parts. -/
abbrev MpCell := List Part

/-- One part step of the fast pass (the body of the per-part loop at
ograrrowlayer.hpp:3926-3947): a part with at least one ring contributes
the points of its first ring only ("for bounding box, only the first
ring matters"); a ring-less part contributes nothing. -/
def fastPartStep (a : OEnv) (part : Part) : OEnv :=
  match part with
  | [] => a
  | ring0 :: _ => Env.mergeRing a ring0

/-- The fast-extent contribution of one multipolygon cell
(ograrrowlayer.hpp:3918-3947). -/
def fastMergeCell (acc : OEnv) (cell : MpCell) : OEnv :=
  cell.foldl fastPartStep acc

/-- One part step of the full decode: every ring of the part is merged
(the full decode path of ReadGeometry, ograrrowlayer.hpp:2445-2507,
visits every ring; OGRGeometry::getEnvelope then merges every vertex). -/
def fullPartStep (a : OEnv) (part : Part) : OEnv :=
  part.foldl Env.mergeRing a

/-- The envelope of a fully decoded multipolygon. -/
def fullCellEnv (cell : MpCell) : OEnv :=
  cell.foldl fullPartStep none

/-- One row step of the fast extent pass: null rows are skipped. -/
def fastRowStep (a : OEnv) (row : Option MpCell) : OEnv :=
  match row with
  | none => a
  | some cell => fastMergeCell a cell

/-- The fast extent pass over a batch of (possibly null) multipolygon
cells: the per-row loop of GetExtent skips null rows and merges the
first-ring points of every part straight into the running extent. -/
def fastExtentBatch (rows : List (Option MpCell)) : OEnv :=
  rows.foldl fastRowStep none

/-- One row step of the reference extent: merge the envelope of the
fully decoded geometry. -/
def fullRowStep (a : OEnv) (row : Option MpCell) : OEnv :=
  match row with
  | none => a
  | some cell => OEnv.union a (fullCellEnv cell)

/-- The reference extent: fully decode each non-null row and merge the
per-geometry envelopes (the generic OGRLayer extent computation). -/
def fullExtentBatch (rows : List (Option MpCell)) : OEnv :=
  rows.foldl fullRowStep none

/-- Modelled from the spec: OGRWKBGetBoundingBox (ogr_wkb.cpp, not under
src/) computes a WKB geometry's bounding box "by parsing only the
length-prefix/outer-ring of the geometry, never a full decode", i.e. for
polygonal WKB it inspects the exterior ring of each part only.  The WKB
geometry is represented by its parsed part/ring/point structure. -/
def OGRWKBGetBoundingBox (g : MpCell) : OEnv :=
  fastMergeCell none g

/-- One row step of the WKB fast extent pass
(ograrrowlayer.hpp:3822-3877): per non-null row, merge the bounding box
obtained by OGRWKBGetBoundingBox. -/
def wkbRowStep (a : OEnv) (row : Option MpCell) : OEnv :=
  match row with
  | none => a
  | some g => OEnv.union a (OGRWKBGetBoundingBox g)

/-- The WKB fast extent pass over a batch. -/
def wkbFastExtentBatch (rows : List (Option MpCell)) : OEnv :=
  rows.foldl wkbRowStep none

/-- Whether every point of a ring lies inside the envelope of the ring
r0. -/
def ringWithin (r0 : Ring) (r : Ring) : Bool :=
  r.all fun p =>
    match ringEnv r0 with
    | some e => e.containsPt p
    | none => false

/-- Validity of one polygon part for the fast pass: every hole ring
(rings after the first) lies within the envelope of its exterior (first)
ring. -/
def partHolesInside (part : Part) : Bool :=
  match part with
  | [] => true
  | r0 :: rest => rest.all (ringWithin r0)

/-- Validity of a whole multipolygon cell. -/
def cellHolesInside (cell : MpCell) : Bool :=
  cell.all partHolesInside

/-- Validity of a batch: every non-null row is a valid multipolygon in the
hole-containment sense. -/
def batchHolesInside (rows : List (Option MpCell)) : Bool :=
  rows.all fun row =>
    match row with
    | none => true
    | some cell => cellHolesInside cell

/-! ## Predicate compiler (ExploreExprNode) and evaluator (C1, C2, C6) -/

/-- The typed literal stored in a compiled Constraint
(OGRArrowLayer::Constraint::Type plus the value union). -/
inductive ConstraintValue where
  | int (v : Int)
  | int64 (v : Int)
  | real (v : Rat)
  | str (s : String)
deriving DecidableEq, Repr

/-- A compiled predicate unit (OGRArrowLayer::Constraint): OGR field
index, resolved physical Arrow column index, operator and typed literal.
For ISNULL/ISNOTNULL constraints the literal is unused (the C++ union is
left uninitialized); it defaults to int 0 here. -/
structure Constraint where
  iField : Int
  iArrayIdx : Int := 0
  nOperation : SWQOp
  value : ConstraintValue := .int 0
deriving DecidableEq, Repr

/-- osValue: the string rendering of the literal kept alongside the union
(std::to_string for numerics, the verbatim string otherwise). -/
def ConstraintValue.osValue : ConstraintValue → String
  | .int v => toString v
  | .int64 v => toString v
  | .real v => toString v
  | .str s => s

/-- A literal node of the SWQ expression tree (SNT_CONSTANT): its
field_type discriminates integer and floating literals. -/
inductive SwqLiteral where
  | int (v : Int)
  | float (v : Rat)
  | str (s : String)
deriving DecidableEq, Repr

/-- Truncation of a rational toward zero, the behaviour of the C++
static_cast from double to an integer type. -/
def ratTrunc (q : Rat) : Int :=
  q.num.tdiv (q.den : Int)

/-- FillTargetValueFromSrcExpr (ograrrowlayer.hpp:2576-2656): convert the
literal of a comparison to the resolved type of the target field.
Integer/Integer64 fields truncate floating literals; Real fields read the
float value (an integer literal reaching a Real field has been promoted by
the SWQ parser, modelled by accepting the int as exact); String fields
copy the string verbatim.  Returns none (the C++ `return false`) for all
other field types — including Date/Time/DateTime, whose handling is
compiled out behind `#ifdef not_yet_handled` — and for literals that do
not fit the field type class. -/
def FillTargetValueFromSrcExpr (fieldType : OGRFieldType)
    (lit : SwqLiteral) : Option ConstraintValue :=
  match fieldType, lit with
  | .OFTInteger, .float v => some (.int (ratTrunc v))
  | .OFTInteger, .int v => some (.int v)
  | .OFTInteger, .str _ => none
  | .OFTInteger64, .float v => some (.int64 (ratTrunc v))
  | .OFTInteger64, .int v => some (.int64 v)
  | .OFTInteger64, .str _ => none
  | .OFTReal, .float v => some (.real v)
  | .OFTReal, .int v => some (.real v)
  | .OFTReal, .str _ => none
  | .OFTString, .str s => some (.str s)
  | .OFTString, _ => none
  | _, _ => none

/-- A node of the SWQ predicate tree, restricted to the node kinds
ExploreExprNode dispatches on.  `column` carries the field_index of the
referenced column, `constant` a literal. -/
inductive SwqExpr where
  | column (fieldIdx : Int)
  | constant (lit : SwqLiteral)
  | binop (op : SWQOp) (lhs rhs : SwqExpr)
  | andNode (lhs rhs : SwqExpr)
  | isNullNode (arg : SwqExpr)
  | notNode (arg : SwqExpr)
deriving DecidableEq, Repr

/-- GetColumnSubNode (ograrrowlayer.hpp:2534): the first direct child that
is a column reference, left child preferred. -/
def GetColumnSubNode : SwqExpr → Option Int
  | .binop _ (.column i) _ => some i
  | .binop _ _ (.column i) => some i
  | _ => none

/-- GetConstantSubNode (ograrrowlayer.hpp:2550): the first direct child
that is a constant, right child preferred. -/
def GetConstantSubNode : SwqExpr → Option SwqLiteral
  | .binop _ _ (.constant v) => some v
  | .binop _ (.constant v) _ => some v
  | _ => none

/-- The operator mirroring applied when the comparison is written
"constant op column" (ograrrowlayer.hpp:2758-2781): LE↔GE and LT↔GT are
swapped, NE and EQ are kept. -/
def mirrorOp : SWQOp → SWQOp
  | .LE => .GE
  | .LT => .GT
  | .GE => .LE
  | .GT => .LT
  | op => op

/-- The sentinel offset of the FID pseudo-field: field_index =
GetFieldCount() + SPF_FID with SPF_FID = 0 (ogr_swq special fields). -/
def SPF_FID : Int := 0

/-- The schema information ExploreExprNode consults: the resolved OGR
types of the regular fields (indexed by field_index).  The FID
pseudo-field at index fieldCount + SPF_FID is typed OFTInteger64 via the
dummy FID field definition (ograrrowlayer.hpp:2738). -/
structure LayerFields where
  fieldTypes : List OGRFieldType
deriving DecidableEq, Repr

/-- The field count of the layer definition. -/
def LayerFields.fieldCount (lf : LayerFields) : Int :=
  lf.fieldTypes.length

/-- The field type used for literal coercion: a regular field's resolved
type, or OFTInteger64 for the FID pseudo-field. -/
def LayerFields.typeOfField (lf : LayerFields) (idx : Int) :
    Option OGRFieldType :=
  if idx = lf.fieldCount + SPF_FID then some .OFTInteger64
  else if 0 ≤ idx ∧ idx < lf.fieldCount then
    lf.fieldTypes.get? idx.toNat
  else none

/-- OGRArrowLayer::ExploreExprNode (ograrrowlayer.hpp:2716-2819): walk the
predicate tree and collect Constraints.  AND nodes recurse into both
children; a binary comparison with one column child and one constant child
becomes one Constraint when the column is a regular field or the FID
pseudo-field and the literal coercion succeeds, with the operator mirrored
when the column is the right operand; col IS NULL and NOT (col IS NULL)
become ISNULL/ISNOTNULL constraints; every other shape contributes
nothing.  iArrayIdx resolution (ComputeConstraintsArrayIdx) is a separate
later step and is left 0 here. -/
def ExploreExprNode (lf : LayerFields) : SwqExpr → List Constraint
  | .andNode l r => ExploreExprNode lf l ++ ExploreExprNode lf r
  | .binop op lhs rhs =>
    if IsComparisonOp op then
      match GetColumnSubNode (.binop op lhs rhs),
            GetConstantSubNode (.binop op lhs rhs) with
      | some iCol, some lit =>
        if iCol < lf.fieldCount ∨ iCol = lf.fieldCount + SPF_FID then
          match lf.typeOfField iCol with
          | some ft =>
            match FillTargetValueFromSrcExpr ft lit with
            | some v =>
              if lhs = .column iCol then
                [{ iField := iCol, nOperation := op, value := v }]
              else
                [{ iField := iCol, nOperation := mirrorOp op, value := v }]
            | none => []
          | none => []
        else []
      | _, _ => []
    else []
  | .isNullNode (.column iCol) =>
    if iCol < lf.fieldCount then
      [{ iField := iCol, nOperation := .ISNULL }]
    else []
  | .notNode (.isNullNode (.column iCol)) =>
    if iCol < lf.fieldCount then
      [{ iField := iCol, nOperation := .ISNOTNULL }]
    else []
  | _ => []

/-! ## Constraint evaluation (ConstraintEvaluator, CompareStr) -/

/-- CompareGeneric::get (ograrrowlayer.hpp:2866-2890) over a linearly
ordered value domain. -/
def CompareGeneric {α : Type} [LinearOrder α] (op : SWQOp) (v1 v2 : α) :
    Bool :=
  match op with
  | .LE => decide (v1 ≤ v2)
  | .LT => decide (v1 < v2)
  | .NE => decide (v1 ≠ v2)
  | .EQ => decide (v1 = v2)
  | .GE => decide (v1 ≥ v2)
  | .GT => decide (v1 > v2)
  | _ => true

/-- The numeric column value handed to ConstraintEvaluator: the C++
template instantiations use int, GIntBig or double; the integer kinds are
modelled as Int and double as Rat. -/
inductive NumValue where
  | int (v : Int)
  | int64 (v : Int)
  | real (v : Rat)
deriving DecidableEq, Repr

/-- Rational view of a numeric value (the static_cast <double> used
by the Compare specializations that promote to double). -/
def NumValue.toRat : NumValue → Rat
  | .int v => (v : Rat)
  | .int64 v => (v : Rat)
  | .real v => v

/-- Integer view of an int/int64 value. -/
def NumValue.toInt : NumValue → Int
  | .int v => v
  | .int64 v => v
  | .real _ => 0

/-- std::to_string of the column value, used when a numeric column is
compared against a String constraint. -/
def NumValue.toOsString : NumValue → String
  | .int v => toString v
  | .int64 v => toString v
  | .real v => toString v

/-- ConstraintEvaluator<T> (ograrrowlayer.hpp:2917-2944) for a numeric
column value: dispatch on the constraint type; Integer/Integer64
constraints compare integrally against integer columns (the Compare
specializations on int/GIntBig) and via promotion to double against
double columns; Real constraints always compare as double; String
constraints compare std::to_string(value) against the stored string. -/
def ConstraintEvaluatorNum (c : Constraint) (value : NumValue) : Bool :=
  match c.value with
  | .int target =>
    match value with
    | .real v => CompareGeneric c.nOperation v (target : Rat)
    | v => CompareGeneric c.nOperation v.toInt target
  | .int64 target =>
    match value with
    | .real v => CompareGeneric c.nOperation v (target : Rat)
    | v => CompareGeneric c.nOperation v.toInt target
  | .real target => CompareGeneric c.nOperation value.toRat target
  | .str target => CompareGeneric c.nOperation value.toOsString target

/-- CompareStr (ograrrowlayer.hpp:2956-2982): val1 is the column value (a
string view into the Arrow buffer), val2 the constraint string; EQ is a
length check plus memcmp, the other operators go through
std::string::compare of val2 against val1 (cmpRes is the three-way result
of comparing val2 with val1). -/
def CompareStr (op : SWQOp) (val1 : String) (val2 : String) : Bool :=
  if op = .EQ then val1 = val2
  else
    match compare val2 val1 with
    | .lt =>
      match op with
      | .LE => false
      | .LT => false
      | .NE => true
      | .GE => true
      | .GT => true
      | _ => true
    | Ordering.eq =>
      match op with
      | .LE => true
      | .LT => false
      | .NE => false
      | .GE => true
      | .GT => false
      | _ => true
    | .gt =>
      match op with
      | .LE => true
      | .LT => true
      | .NE => true
      | .GE => false
      | .GT => false
      | _ => true

/-- ConstraintEvaluator on a string column value
(ograrrowlayer.hpp:2984-2988). -/
def ConstraintEvaluatorStr (c : Constraint) (value : String) : Bool :=
  CompareStr c.nOperation value c.value.osValue

/-! ## Per-row attribute filter evaluation
(SkipToNextFeatureDueToAttributeFilter) -/

/-- One Arrow cell as seen by the type switch of
SkipToNextFeatureDueToAttributeFilter: a null slot, or a value of one of
the handled column types.  The unsigned 8/16-bit and boolean kinds are all
widened to int by the C++ casts, UINT32 and INT64 to GIntBig, UINT64 /
HALF_FLOAT / FLOAT / DECIMAL to double; NA and the default branch match no
evaluation. -/
inductive ArrowCell where
  | null
  | na
  | int (v : Int)
  | int64 (v : Int)
  | real (v : Rat)
  | str (s : String)
  | other
deriving DecidableEq, Repr

/-- The per-batch column data a constraint row check reads: the cells of
the current row, indexed by the resolved iArrayIdx. -/
def cellAt (cells : List ArrowCell) (idx : Int) : ArrowCell :=
  if 0 ≤ idx then (cells.get? idx.toNat).getD .other else .other

/-- The evaluation of one constraint against one non-null cell: the body
of the type switch (ograrrowlayer.hpp:3047-3241), each branch casting the
Arrow value and calling ConstraintEvaluator.  NA and unlisted types fall
through (`break` / `default`), i.e. the constraint does not reject the
row. -/
def evalCellConstraint (c : Constraint) : ArrowCell → Bool
  | .na => true
  | .other => true
  | .null => true
  | .int v => ConstraintEvaluatorNum c (.int v)
  | .int64 v => ConstraintEvaluatorNum c (.int64 v)
  | .real v => ConstraintEvaluatorNum c (.real v)
  | .str s => ConstraintEvaluatorStr c s

/-- The per-constraint step of SkipToNextFeatureDueToAttributeFilter
(ograrrowlayer.hpp:2996-3244): returns true when the row must be skipped
because of this constraint.  fieldCount, fidColumnEmpty and featureIdx
stand for m_poFeatureDefn->GetFieldCount(), m_osFIDColumn.empty() and
m_nFeatureIdx. -/
def constraintSkipsRow (fieldCount : Int) (fidColumnEmpty : Bool)
    (featureIdx : Int) (cells : List ArrowCell) (c : Constraint) : Bool :=
  if c.iArrayIdx < 0 then
    if c.iField = fieldCount + SPF_FID && fidColumnEmpty then
      !ConstraintEvaluatorNum c (.int64 featureIdx)
    else
      false
  else
    let cell := cellAt cells c.iArrayIdx
    let bIsNull := cell = ArrowCell.null
    if c.nOperation = .ISNULL then !bIsNull
    else if c.nOperation = .ISNOTNULL then bIsNull
    else if bIsNull then true
    else !evalCellConstraint c cell

/-- SkipToNextFeatureDueToAttributeFilter: the row is skipped as soon as
one constraint of the conjunction rejects it; a row surviving every
constraint is kept (`return false`). -/
def SkipToNextFeatureDueToAttributeFilter (fieldCount : Int)
    (fidColumnEmpty : Bool) (featureIdx : Int)
    (constraints : List Constraint) (cells : List ArrowCell) : Bool :=
  constraints.any
    (constraintSkipsRow fieldCount fidColumnEmpty featureIdx cells)

/-! ## The WKB spatial fast path and the row-production loop
(GetNextRawFeature, C1) -/

/-- One row of a batch as seen by the WKB branch of GetNextRawFeature:
the nullity of the WKB cell, the precomputed bbox quadruple (none when
the quadruple is null at this row or the bbox struct is null), the result
of the partial WKB parse (OGRWKBGetBoundingBox may fail, none), and the
attribute cells of the row. -/
structure FilterRow where
  wkbNull : Bool
  bboxQuad : OEnv
  wkbBBox : OEnv
  cells : List ArrowCell := []
deriving DecidableEq, Repr

/-- The spatial skip decision of the WKB branch
(ograrrowlayer.hpp:3408-3459): a null WKB cell is skipped; otherwise, when
the bbox arrays are resolved for the batch and the quadruple is non-null
at this row, its envelope is tested against the filter envelope; otherwise
the envelope from the partial WKB parse is tested, a failed parse meaning
no skip. -/
def spatialSkipWKB (filterEnv : Env) (hasBBoxArrays : Bool)
    (r : FilterRow) : Bool :=
  if r.wkbNull then true
  else
    match hasBBoxArrays, r.bboxQuad with
    | true, some e => !filterEnv.intersects e
    | _, _ =>
      match r.wkbBBox with
      | some e => !filterEnv.intersects e
      | none => false

/-- The skip decision of one iteration of the WKB while-loop
(ograrrowlayer.hpp:3408-3478): the loop leaves the row (produces it) when
the spatial test does not skip it, or when attribute constraints exist and
the attribute filter does not skip it; only otherwise does it advance past
the row. -/
def gnrfSkipsRow (filterEnv : Env) (hasBBoxArrays : Bool)
    (fieldCount : Int) (fidColumnEmpty : Bool) (featureIdx : Int)
    (constraints : List Constraint) (r : FilterRow) : Bool :=
  spatialSkipWKB filterEnv hasBBoxArrays r &&
    (constraints.isEmpty ||
      SkipToNextFeatureDueToAttributeFilter fieldCount fidColumnEmpty
        featureIdx constraints r.cells)

/-- Iterating GetNextRawFeature to exhaustion over the rows of the batch
stream (batches flattened into one row list, as ReadNextBatch chains
them): every produced (fully decoded) row is returned with its feature
index; skipped rows advance m_nFeatureIdx without being decoded. -/
def produceAllWKB (filterEnv : Env) (hasBBoxArrays : Bool)
    (fieldCount : Int) (fidColumnEmpty : Bool)
    (constraints : List Constraint) (featureIdx : Int) :
    List FilterRow → List (Int × FilterRow)
  | [] => []
  | r :: rest =>
    if gnrfSkipsRow filterEnv hasBBoxArrays fieldCount fidColumnEmpty
        featureIdx constraints r then
      produceAllWKB filterEnv hasBBoxArrays fieldCount fidColumnEmpty
        constraints (featureIdx + 1) rest
    else
      (featureIdx, r) ::
        produceAllWKB filterEnv hasBBoxArrays fieldCount fidColumnEmpty
          constraints (featureIdx + 1) rest

/-- The attribute-only loop of GetNextRawFeature
(ograrrowlayer.hpp:3613-3631), taken when no spatial filter is installed
and attribute constraints exist: rows are skipped exactly when
SkipToNextFeatureDueToAttributeFilter rejects them.  Generic in the row
representation; cellsOf extracts the Arrow cells of a row. -/
def produceAllAttrOnly {α : Type} (cellsOf : α → List ArrowCell)
    (fieldCount : Int) (fidColumnEmpty : Bool)
    (constraints : List Constraint) (featureIdx : Int) :
    List α → List (Int × α)
  | [] => []
  | r :: rest =>
    if SkipToNextFeatureDueToAttributeFilter fieldCount fidColumnEmpty
        featureIdx constraints (cellsOf r) then
      produceAllAttrOnly cellsOf fieldCount fidColumnEmpty constraints
        (featureIdx + 1) rest
    else
      (featureIdx, r) ::
        produceAllAttrOnly cellsOf fieldCount fidColumnEmpty constraints
          (featureIdx + 1) rest

/-! ## The concrete 3-row scenario (C2) -/

/-- A row of the C2 scenario batch: one string cell "name" and one WKB
point geometry cell, the latter already given as its parsed coordinates.
Modelled from the spec: OGRGeometryFactory::createFromWkb (not under
src/) parses the standard well-known-binary grammar, so decoding the WKB
point cell yields exactly the stored coordinate pair. -/
structure WKBPointRow where
  nameCell : ArrowCell
  wkbPoint : Option Pt
deriving DecidableEq, Repr

/-- The full decode (ReadFeature) of a C2 row: the "name" field value
(unset for a null cell) and the geometry decoded from WKB. -/
def readFeatureNamePoint (r : WKBPointRow) : Option String × Option Pt :=
  (match r.nameCell with
   | .str s => some s
   | _ => none,
   r.wkbPoint)

/-- Row 1 of the scenario: name "a", point (1, 10). -/
def c2Row1 : WKBPointRow := ⟨.str "a", some ((1 : Rat), (10 : Rat))⟩

/-- Row 2 of the scenario: name null, point (2, 20). -/
def c2Row2 : WKBPointRow := ⟨.null, some ((2 : Rat), (20 : Rat))⟩

/-- Row 3 of the scenario: name "c", point (3, 30). -/
def c2Row3 : WKBPointRow := ⟨.str "c", some ((3 : Rat), (30 : Rat))⟩

/-- The layer schema of the scenario: one string field "name". -/
def c2Fields : LayerFields := ⟨[.OFTString]⟩

/-- The constraints compiled from the filter `name != 'a'` by
ExploreExprNode, the name column being field and Arrow column 0. -/
def c2Constraints : List Constraint :=
  ExploreExprNode c2Fields (.binop .NE (.column 0) (.constant (.str "a")))

/-- Iterating the scenario batch under the compiled constraints (no FID
column, so m_osFIDColumn is empty; feature indices start at 0). -/
def c2Produced : List (Int × WKBPointRow) :=
  produceAllAttrOnly (fun r => [r.nameCell]) 1 true c2Constraints 0
    [c2Row1, c2Row2, c2Row3]

/-! ## GeoArrow nested-list decoding (ReadGeometry, C5) -/

/-- A non-null cell of a GeoArrow-encoded geometry column, for the five
list-based encodings (GEOARROW_POINT is excluded: its cell is a single
fixed-size run, not a list). -/
inductive GeoArrowCell where
  | linestring (pts : List Pt)
  | polygon (rings : List (List Pt))
  | multipoint (pts : List Pt)
  | multilinestring (parts : List (List Pt))
  | multipolygon (parts : List (List (List Pt)))
deriving DecidableEq, Repr

/-- Whether the cell carries no coordinates at all — its list is
zero-length at some nesting level everywhere (outer list empty, or every
inner list empty, …). -/
def GeoArrowCell.isEmptyCell : GeoArrowCell → Bool
  | .linestring pts => pts.isEmpty
  | .polygon rings => rings.all List.isEmpty
  | .multipoint pts => pts.isEmpty
  | .multilinestring parts => parts.all List.isEmpty
  | .multipolygon parts => parts.all fun rings => rings.all List.isEmpty

/-- The coordinate content of a decoded OGR geometry. -/
inductive GeomContent where
  | lineString (pts : List Pt)
  | polygon (rings : List (List Pt))
  | multiPoint (pts : List Pt)
  | multiLineString (parts : List (List Pt))
  | multiPolygon (parts : List (List (List Pt)))
deriving DecidableEq, Repr

/-- OGRGeometry::IsEmpty: a line string is empty when it has no points; a
polygon when every ring is empty; a collection when every member is
empty. -/
def GeomContent.isEmpty : GeomContent → Bool
  | .lineString pts => pts.isEmpty
  | .polygon rings => rings.all List.isEmpty
  | .multiPoint pts => pts.isEmpty
  | .multiLineString parts => parts.all List.isEmpty
  | .multiPolygon parts => parts.all fun rings => rings.all List.isEmpty

/-- A decoded OGR geometry value: its coordinate content and its 3D and
measured flags. -/
structure OGRGeomValue where
  content : GeomContent
  hasZ : Bool
  hasM : Bool
deriving DecidableEq, Repr

/-- The GEOARROW_LINESTRING/POLYGON/MULTIPOINT/MULTILINESTRING/
MULTIPOLYGON branches of OGRArrowLayer::ReadGeometry
(ograrrowlayer.hpp:2279-2507): a null cell decodes to null (none);
otherwise the nested lists are rebuilt into the corresponding OGR
geometry.  Non-empty coordinate runs are installed through the
SetPointsOfLine instantiation selected by the declared has-Z/has-M flags,
so the built geometry carries the declared dimensionality; when the
result IsEmpty(), the code explicitly applies set3D(bHasZ) and
setMeasured(bHasM), so the flags equal the declared ones in that case
too. -/
def ReadGeometryGeoArrow (declZ declM : Bool) :
    Option GeoArrowCell → Option OGRGeomValue
  | none => none
  | some cell =>
    some
      (match cell with
       | .linestring pts => ⟨.lineString pts, declZ, declM⟩
       | .polygon rings => ⟨.polygon rings, declZ, declM⟩
       | .multipoint pts => ⟨.multiPoint pts, declZ, declM⟩
       | .multilinestring parts => ⟨.multiLineString parts, declZ, declM⟩
       | .multipolygon parts => ⟨.multiPolygon parts, declZ, declM⟩)

/-! ## The layer state, extent cache and filter setters (C7) -/

/-- The mutable OGRArrowLayer state that the extent cache claims concern:
the geometry columns (per geometry field, the multipolygon cells of every
row of every batch, flattened), the m_oMapExtents cache, the extent
quadruples from dataset metadata consulted by FastGetExtent, the compiled
attribute constraints, the installed spatial filter, and the
batch-cursor cache validity bit. -/
structure ArrowLayerState where
  geomColumns : List (List (Option MpCell))
  mapExtents : List (Int × Env) := []
  metadataExtents : List (Int × Env) := []
  constraints : List Constraint := []
  filterGeom : OEnv := none
  cachedBatchesValid : Bool := true
deriving Repr

/-- Association-list lookup for the per-geometry-field extent maps. -/
def lookupExtent (m : List (Int × Env)) (i : Int) : Option Env :=
  (m.find? fun p => p.1 = i).map Prod.snd

/-- The rows of geometry field i. -/
def ArrowLayerState.geomRows (s : ArrowLayerState) (i : Int) :
    List (Option MpCell) :=
  if 0 ≤ i then (s.geomColumns.get? i.toNat).getD [] else []

/-- OGRArrowLayer::FastGetExtent (ograrrowlayer.hpp:3730-3756): the
m_oMapExtents cache first, then the bbox stored in the dataset
metadata. -/
def FastGetExtent (s : ArrowLayerState) (i : Int) : Option Env :=
  match lookupExtent s.mapExtents i with
  | some e => some e
  | none => lookupExtent s.metadataExtents i

/-- The full-scan extent computation of GetExtent for a
GEOARROW_MULTIPOLYGON field (ograrrowlayer.hpp:3879-3968): rewind, then
iterate every row of every batch — no spatial or attribute filter is
consulted anywhere in the loop — merging the first-ring points of each
part. -/
def ArrowLayerState.computeExtent (s : ArrowLayerState) (i : Int) : OEnv :=
  fastExtentBatch (s.geomRows i)

/-- OGRArrowLayer::GetExtent (ograrrowlayer.hpp:3762-3971) for a
multipolygon geometry field: FastGetExtent first; otherwise the full
scan, whose initialized result is stored into m_oMapExtents before being
returned. -/
def GetExtent (s : ArrowLayerState) (i : Int) :
    Option Env × ArrowLayerState :=
  match FastGetExtent s i with
  | some e => (some e, s)
  | none =>
    match s.computeExtent i with
    | some e => (some e, { s with mapExtents := (i, e) :: s.mapExtents })
    | none => (none, s)

/-- OGRArrowLayer::SetAttributeFilter (ograrrowlayer.hpp:2825-2858):
clears and recompiles the constraint list via ExploreExprNode and, when a
filter was or is installed, invalidates the cached batches.
InvalidateCachedBatches is modelled from the spec: it is implemented by
the format drivers outside src/ and resets the cached batch data of the
cursor; it does not touch m_oMapExtents. -/
def SetAttributeFilter (s : ArrowLayerState) (lf : LayerFields)
    (expr : Option SwqExpr) : ArrowLayerState :=
  { s with
    constraints :=
      match expr with
      | none => []
      | some e2 => ExploreExprNode lf e2,
    cachedBatchesValid := false }

/-- OGRArrowLayer::SetSpatialFilter (ograrrowlayer.hpp:3689-3724):
installs the filter geometry and invalidates cached batches
(InvalidateCachedBatches modelled from the spec as for
SetAttributeFilter); m_oMapExtents is only read (through FastGetExtent),
never written. -/
def SetSpatialFilter (s : ArrowLayerState) (g : OEnv) : ArrowLayerState :=
  { s with filterGeom := g, cachedBatchesValid := false }

/-! ## The optimized batch export loop (GetNextArrowArray, C8) -/

/-- One physical batch as seen by GetNextArrowArray: its row count after
PostFilterArrowArray (only meaningful when a filter is active), and
whether the WKT→WKB re-encoding of one of its geometry columns fails
(CreateWKBArrayFromWKTArray returning null). -/
structure ExportBatch where
  rows : Nat
  rowsAfterFilter : Nat
  reencodeFails : Bool := false
deriving DecidableEq, Repr

/-- The outcome of one GetNextArrowArray call. -/
inductive ArrowArrayResult where
  | terminalZero
  | enomemZero
  | batchOut (rows : Nat)
deriving DecidableEq, Repr

/-- OGRArrowLayer::GetNextArrowArray (ograrrowlayer.hpp:4285-4407) over
the remaining physical batches: an exhausted source returns the
zero-initialized terminal array with return code 0; a failing WKT→WKB
re-encode zeroes the output and returns ENOMEM; with an attribute or
spatial filter active, a batch whose post-filter length is 0 is released
and the loop continues with the next physical batch; otherwise the batch
is returned. -/
def GetNextArrowArray (filtersActive : Bool) :
    List ExportBatch → ArrowArrayResult
  | [] => .terminalZero
  | b :: rest =>
    if b.reencodeFails then .enomemZero
    else if filtersActive && b.rowsAfterFilter == 0 then
      GetNextArrowArray filtersActive rest
    else
      .batchOut (if filtersActive then b.rowsAfterFilter else b.rows)

/-! ## The WKT→WKB append buffer (C9) -/

/-- The maximum representable signed 32-bit offset, MAX_SIZE_SINT32 of
OGRArrowLayerAppendBuffer::Grow. -/
def MAX_SIZE_SINT32 : Nat := 2 ^ 31 - 1

/-- The size/capacity pair of the shared OGRAppendBuffer. -/
structure AppendBufferState where
  nSize : Nat
  nCapacity : Nat
deriving DecidableEq, Repr

/-- OGRArrowLayerAppendBuffer::Grow (ograrrowlayer.hpp:4425-4452): the
append of nItemSize bytes fails ("Too large WKT content") when it would
push the total size past MAX_SIZE_SINT32; otherwise the new capacity is
the larger of size + nItemSize and the doubled capacity capped at
MAX_SIZE_SINT32.  An allocation failure of the new buffer makes Grow fail
in the same way (returns none); the model folds that case into the size
check path only in that both surface as failure to the caller. -/
def Grow (b : AppendBufferState) (nItemSize : Nat) :
    Option AppendBufferState :=
  if nItemSize > MAX_SIZE_SINT32 - b.nSize then none
  else
    let nNewCapacity := b.nSize + nItemSize
    let nDoubleCapacity := min MAX_SIZE_SINT32 (2 * b.nCapacity)
    let nNewCapacity2 :=
      if nNewCapacity < nDoubleCapacity then nDoubleCapacity
      else nNewCapacity
    some { nSize := b.nSize, nCapacity := nNewCapacity2 }

/-- Modelled from the spec: OGRAppendBuffer::GetPtrForNewBytes (ogr_wkb,
not under src/) reserves nItemSize bytes in the shared buffer — growing
it through the virtual Grow when size + nItemSize exceeds the capacity —
and advances the size; a failed Grow propagates as failure. -/
def GetPtrForNewBytes (b : AppendBufferState) (nItemSize : Nat) :
    Option AppendBufferState :=
  if b.nSize + nItemSize > b.nCapacity then
    match Grow b nItemSize with
    | none => none
    | some b2 => some { b2 with nSize := b2.nSize + nItemSize }
  else
    some { b with nSize := b.nSize + nItemSize }

/-- One cell of the source WKT column: a null slot (skipped via the
validity bitmap), an unparsable WKT string, or a geometry whose WKB
encoding takes the given number of bytes. -/
inductive WKTCell where
  | null
  | bad
  | geom (wkbSize : Nat)
deriving DecidableEq, Repr

/-- Modelled from the spec: OGRWKTToWKBTranslator::TranslateWKT (ogr_wkb,
not under src/) parses one WKT string and appends its WKB bytes to the
shared buffer through GetPtrForNewBytes; a parse failure or a failed
append returns size_t(-1), which CreateWKBArrayFromWKTArray turns into a
whole-array abort. -/
def TranslateWKT (b : AppendBufferState) :
    WKTCell → Option AppendBufferState
  | .null => some b
  | .bad => none
  | .geom n => GetPtrForNewBytes b n

/-- The per-row loop of CreateWKBArrayFromWKTArray
(ograrrowlayer.hpp:4543-4561): record the running offset, skip null rows,
translate the others; the first failure aborts the whole build (the
target array is released, null is returned). -/
def translateRows (b : AppendBufferState) (offsets : List Nat) :
    List WKTCell → Option (List Nat × AppendBufferState)
  | [] => some (offsets ++ [b.nSize], b)
  | c :: rest =>
    match TranslateWKT b c with
    | none => none
    | some b2 => translateRows b2 (offsets ++ [b.nSize]) rest

/-- OGRArrowLayer::CreateWKBArrayFromWKTArray
(ograrrowlayer.hpp:4466-4565): allocate the target buffers — the data
buffer with initial capacity min(INT32_MAX, 100 · rowCount) — then
translate every row, aborting with none on any failure so that no
partial array is ever returned. -/
def CreateWKBArrayFromWKTArray (cells : List WKTCell) :
    Option (List Nat × AppendBufferState) :=
  let nInitialCapacity := min MAX_SIZE_SINT32 (100 * cells.length)
  translateRows { nSize := 0, nCapacity := nInitialCapacity } [] cells

/-! ## Statement-side definitions -/

/-- The reference table of the claim for the Type Mapper, written from
the spec's words: for each listed columnar source type, the claimed
(type, subtype, width, precision) quadruple.  Types the claim's table
does not list are mapped to none. -/
def claimedTypeTable : ArrowType → Option MappedField
  | .BOOL => some { eType := .OFTInteger, eSubType := .OFSTBoolean }
  | .UINT8 => some { eType := .OFTInteger }
  | .INT8 => some { eType := .OFTInteger }
  | .UINT16 => some { eType := .OFTInteger }
  | .INT16 => some { eType := .OFTInteger, eSubType := .OFSTInt16 }
  | .UINT32 => some { eType := .OFTInteger64 }
  | .INT32 => some { eType := .OFTInteger }
  | .UINT64 => some { eType := .OFTReal }
  | .INT64 => some { eType := .OFTInteger64 }
  | .HALF_FLOAT => some { eType := .OFTReal, eSubType := .OFSTFloat32 }
  | .FLOAT => some { eType := .OFTReal, eSubType := .OFSTFloat32 }
  | .DOUBLE => some { eType := .OFTReal }
  | .STRING => some { eType := .OFTString }
  | .BINARY => some { eType := .OFTBinary }
  | .FIXED_SIZE_BINARY w => some { eType := .OFTBinary, width := w }
  | .DATE32 => some { eType := .OFTDate }
  | .DATE64 => some { eType := .OFTDate }
  | .TIME32 => some { eType := .OFTTime }
  | .TIME64 => some { eType := .OFTInteger64 }
  | .DECIMAL128 p s => some { eType := .OFTReal, width := p, precision := s }
  | .DECIMAL256 p s => some { eType := .OFTReal, width := p, precision := s }
  | _ => none

/-- The amended row-production loop characterization for C1, written from
the amended claim's words: with attribute constraints present, a row is
skipped exactly when it fails the spatial envelope test AND fails the
attribute constraints; every other row is produced with its feature
index. -/
def amendedSurvivorsWKB (filterEnv : Env) (hasBBoxArrays : Bool)
    (fieldCount : Int) (fidColumnEmpty : Bool)
    (constraints : List Constraint) (featureIdx : Int) :
    List FilterRow → List (Int × FilterRow)
  | [] => []
  | r :: rest =>
    if spatialSkipWKB filterEnv hasBBoxArrays r &&
        SkipToNextFeatureDueToAttributeFilter fieldCount fidColumnEmpty
          featureIdx constraints r.cells then
      amendedSurvivorsWKB filterEnv hasBBoxArrays fieldCount fidColumnEmpty
        constraints (featureIdx + 1) rest
    else
      (featureIdx, r) ::
        amendedSurvivorsWKB filterEnv hasBBoxArrays fieldCount
          fidColumnEmpty constraints (featureIdx + 1) rest

/-- A concrete filter envelope for exercising the WKB spatial path: the
unit square. -/
def c1FilterEnv : Env := ⟨0, 1, 0, 1⟩

/-- A concrete batch row whose precomputed bbox quadruple (5..6, 5..6) is
disjoint from c1FilterEnv — the spatial test fails — and whose only
attribute cell is the string "b". -/
def c1Row : FilterRow :=
  { wkbNull := false, bboxQuad := some ⟨5, 6, 5, 6⟩, wkbBBox := none,
    cells := [.str "b"] }

/-- A concrete attribute constraint list (field 0 ≠ 'a') that the cell
"b" passes. -/
def c1Constraints : List Constraint :=
  [{ iField := 0, iArrayIdx := 0, nOperation := .NE, value := .str "a" }]

/-- The union-of-ring-envelopes view of one part (all rings). -/
def partFullEnv (part : Part) : OEnv :=
  part.foldl (fun a r => OEnv.union a (ringEnv r)) none

/-- The first-ring envelope of one part. -/
def partFastEnv : Part → OEnv
  | [] => none
  | r0 :: _ => ringEnv r0

/-- The union-of-first-ring-envelopes view of one cell. -/
def cellFastEnv (cell : MpCell) : OEnv :=
  cell.foldl (fun a part => OEnv.union a (partFastEnv part)) none

/-- The size/capacity safety invariant of the shared append buffer: the
used size fits in the capacity and the capacity never exceeds the
maximum representable signed 32-bit offset. -/
def AppendBufferState.inv (b : AppendBufferState) : Prop :=
  b.nSize ≤ b.nCapacity ∧ b.nCapacity ≤ MAX_SIZE_SINT32

instance (b : AppendBufferState) : Decidable b.inv := by
  unfold AppendBufferState.inv
  infer_instance

/-! ## Theorems -/

/-- C3: for every columnar source type of the claim's reference table the
Type Mapper produces exactly the claimed field type, subtype, width and
precision, and every unhandled type is dropped (with a warning), leaving
the rest of the schema untouched. -/
theorem C3_type_mapper_matches_reference_table :
    (∀ t f, claimedTypeTable t = some f → MapArrowTypeToOGR t = some f) ∧
    (∀ t, IsUnhandledArrowType t = true →
      MapArrowTypeToOGR t = none ∧
      ∀ schema : List MappedField, AddFieldDefn schema t = schema) := by
  constructor
  · intro t f h
    cases t <;>
      simp_all [claimedTypeTable, MapArrowTypeToOGR]
  · intro t h
    cases t <;>
      simp_all [IsUnhandledArrowType, MapArrowTypeToOGR, AddFieldDefn]

/-- Witness for C3: the table entry for INT16 and the drop of a DURATION
field, evaluated concretely. -/
theorem C3_witness :
    claimedTypeTable .INT16 =
      some { eType := .OFTInteger, eSubType := .OFSTInt16 } ∧
    MapArrowTypeToOGR .INT16 =
      some { eType := .OFTInteger, eSubType := .OFSTInt16 } ∧
    IsUnhandledArrowType .DURATION = true ∧
    MapArrowTypeToOGR .DURATION = none ∧
    AddFieldDefn [{ eType := .OFTReal }] .DURATION =
      [{ eType := .OFTReal }] :=
  ⟨rfl, C3_type_mapper_matches_reference_table.1 _ _ rfl, rfl,
    (C3_type_mapper_matches_reference_table.2 .DURATION rfl).1,
    (C3_type_mapper_matches_reference_table.2 .DURATION rfl).2 _⟩

/-- C10: a fixed-size-list-of-double field of list size 3 whose inner
value field is named neither "xyz" nor "xym" is still accepted by the
point-shape classifier, the has-Z/has-M outputs keep the
caller-initialized value false, and the field is classified as a 2D
point. -/
theorem C10_size3_unnamed_point_is_2d (name : String)
    (h1 : name ≠ "xyz") (h2 : name ≠ "xym") :
    IsPointType ⟨3, name, true⟩ false false = (true, false, false) ∧
    IsValidGeometryEncodingPoint ⟨3, name, true⟩ =
      some { hasZ := false, hasM := false } := by
  constructor
  · simp [IsPointType, h1, h2]
  · simp [IsValidGeometryEncodingPoint, IsPointType, h1, h2]

/-- Witness for C10 at the inner field name "abc". -/
theorem C10_witness :
    ("abc" ≠ "xyz" ∧ "abc" ≠ "xym") ∧
    IsPointType ⟨3, "abc", true⟩ false false = (true, false, false) ∧
    IsValidGeometryEncodingPoint ⟨3, "abc", true⟩ =
      some { hasZ := false, hasM := false } :=
  ⟨⟨by decide, by decide⟩,
    C10_size3_unnamed_point_is_2d "abc" (by decide) (by decide)⟩

/-- C5: for the list-based GEOARROW encodings, decoding a non-null cell
whose lists are zero-length (at whatever nesting level) returns a
non-null empty geometry whose 3D and measured flags equal the declared
has-Z/has-M flags of the field, and never fails. -/
theorem C5_empty_geoarrow_cell_decodes_empty (declZ declM : Bool)
    (cell : GeoArrowCell) (h : cell.isEmptyCell = true) :
    ∃ g, ReadGeometryGeoArrow declZ declM (some cell) = some g ∧
      g.content.isEmpty = true ∧ g.hasZ = declZ ∧ g.hasM = declM := by
  cases cell <;>
    exact ⟨_, rfl,
      by simpa [GeoArrowCell.isEmptyCell, GeomContent.isEmpty] using h,
      rfl, rfl⟩

/-- Witness for C5: a multipolygon cell with one part holding one
zero-length ring. -/
theorem C5_witness :
    GeoArrowCell.isEmptyCell (.multipolygon [[[]]]) = true ∧
    ∃ g, ReadGeometryGeoArrow true false (some (.multipolygon [[[]]])) =
        some g ∧
      g.content.isEmpty = true ∧ g.hasZ = true ∧ g.hasM = false :=
  ⟨by decide,
    C5_empty_geoarrow_cell_decodes_empty true false (.multipolygon [[[]]])
      (by decide)⟩

/-- C8: with a predicate or spatial filter active, a batch whose row
count drops to zero after post-filtering makes the loop pull and process
the next physical batch instead of returning, and the terminal
zero-initialized array is returned exactly when the batch source is
exhausted (every remaining batch re-encodes fine and filters to zero
rows, i.e. true end-of-data). -/
theorem C8_zero_rows_pull_next_terminal_iff_eof (b : ExportBatch)
    (rest bs : List ExportBatch) (hf : b.reencodeFails = false)
    (h0 : b.rowsAfterFilter = 0) :
    GetNextArrowArray true (b :: rest) = GetNextArrowArray true rest ∧
    (GetNextArrowArray true bs = .terminalZero ↔
      ∀ b2 ∈ bs, b2.reencodeFails = false ∧ b2.rowsAfterFilter = 0) := by
  constructor
  · simp [GetNextArrowArray, hf, h0]
  · induction bs with
    | nil => simp [GetNextArrowArray]
    | cons hd tl ih =>
      by_cases hfail : hd.reencodeFails
      · simp [GetNextArrowArray, hfail]
      · by_cases hz : hd.rowsAfterFilter = 0
        · simp [GetNextArrowArray, hfail, hz, ih]
        · simp [GetNextArrowArray, hfail, hz]

/-- Witness for C8: a filtered-empty first batch followed by a surviving
batch, evaluated concretely. -/
theorem C8_witness :
    (⟨5, 0, false⟩ : ExportBatch).reencodeFails = false ∧
    GetNextArrowArray true [⟨5, 0, false⟩, ⟨4, 2, false⟩] =
      GetNextArrowArray true [⟨4, 2, false⟩] ∧
    (GetNextArrowArray true [⟨4, 2, false⟩] = .terminalZero ↔
      ∀ b2 ∈ [(⟨4, 2, false⟩ : ExportBatch)],
        b2.reencodeFails = false ∧ b2.rowsAfterFilter = 0) :=
  ⟨rfl,
    (C8_zero_rows_pull_next_terminal_iff_eof ⟨5, 0, false⟩ [⟨4, 2, false⟩]
        [⟨4, 2, false⟩] rfl rfl).1,
    (C8_zero_rows_pull_next_terminal_iff_eof ⟨5, 0, false⟩ [⟨4, 2, false⟩]
        [⟨4, 2, false⟩] rfl rfl).2⟩

/-- C6 counterexample: a binary comparison node with exactly one plain
column reference (a date-typed field, as produced by the Type Mapper for
DATE32 columns) and one constant emits no Constraint at all — literal
coercion for date fields is compiled out (`#ifdef not_yet_handled`), so
the claim's "emits one Constraint" fails for this input. -/
theorem C6_counterexample :
    ExploreExprNode ⟨[.OFTDate]⟩
      (.binop .EQ (.column 0) (.constant (.str "2020/01/01"))) = [] := by
  decide

/-- C6 (amended): for every binary comparison node in which exactly one
operand is a plain column reference to a regular field or the FID
pseudo-field and the other a constant whose literal coerces to the
field's resolved type, the compiler emits one Constraint; with the column
as right operand the operator is mirrored (LE↔GE, LT↔GT, EQ and NE
unchanged), and evaluating the mirrored operator with the operands
swapped is equivalent to the original comparison. -/
theorem C6_amended_constraint_mirroring (lf : LayerFields) (op : SWQOp)
    (iCol : Int) (lit : SwqLiteral) (ft : OGRFieldType)
    (v : ConstraintValue) (hcmp : IsComparisonOp op = true)
    (hrange : iCol < lf.fieldCount ∨ iCol = lf.fieldCount + SPF_FID)
    (hft : lf.typeOfField iCol = some ft)
    (hfill : FillTargetValueFromSrcExpr ft lit = some v) :
    ExploreExprNode lf (.binop op (.column iCol) (.constant lit)) =
      [{ iField := iCol, nOperation := op, value := v }] ∧
    ExploreExprNode lf (.binop op (.constant lit) (.column iCol)) =
      [{ iField := iCol, nOperation := mirrorOp op, value := v }] ∧
    (mirrorOp .LE = .GE ∧ mirrorOp .LT = .GT ∧ mirrorOp .GE = .LE ∧
      mirrorOp .GT = .LT ∧ mirrorOp .EQ = .EQ ∧ mirrorOp .NE = .NE) ∧
    (∀ x c : Int, CompareGeneric (mirrorOp op) x c = CompareGeneric op c x) ∧
    (∀ x c : Rat, CompareGeneric (mirrorOp op) x c = CompareGeneric op c x)
    := by
  refine ⟨?_, ?_, ⟨rfl, rfl, rfl, rfl, rfl, rfl⟩, ?_, ?_⟩
  · simp [ExploreExprNode, GetColumnSubNode, GetConstantSubNode, hcmp,
      hrange, hft, hfill]
  · simp [ExploreExprNode, GetColumnSubNode, GetConstantSubNode, hcmp,
      hrange, hft, hfill]
  · intro x c
    cases op with
    | EQ => simp [CompareGeneric, mirrorOp, eq_comm]
    | NE => simp [CompareGeneric, mirrorOp, ne_comm]
    | LT => simp [CompareGeneric, mirrorOp, gt_iff_lt]
    | LE => simp [CompareGeneric, mirrorOp, ge_iff_le]
    | GT => simp [CompareGeneric, mirrorOp, gt_iff_lt]
    | GE => simp [CompareGeneric, mirrorOp, ge_iff_le]
    | ISNULL => simp [IsComparisonOp] at hcmp
    | ISNOTNULL => simp [IsComparisonOp] at hcmp
  · intro x c
    cases op with
    | EQ => simp [CompareGeneric, mirrorOp, eq_comm]
    | NE => simp [CompareGeneric, mirrorOp, ne_comm]
    | LT => simp [CompareGeneric, mirrorOp, gt_iff_lt]
    | LE => simp [CompareGeneric, mirrorOp, ge_iff_le]
    | GT => simp [CompareGeneric, mirrorOp, gt_iff_lt]
    | GE => simp [CompareGeneric, mirrorOp, ge_iff_le]
    | ISNULL => simp [IsComparisonOp] at hcmp
    | ISNOTNULL => simp [IsComparisonOp] at hcmp

/-- Witness for C6: the filter `5 < field0` on an integer field compiles
to the single mirrored constraint `field0 > 5`. -/
theorem C6_witness :
    IsComparisonOp SWQOp.LT = true ∧
    ExploreExprNode ⟨[.OFTInteger]⟩
        (.binop .LT (.constant (.int 5)) (.column 0)) =
      [{ iField := 0, nOperation := .GT, value := .int 5 }] :=
  ⟨rfl,
    (C6_amended_constraint_mirroring ⟨[.OFTInteger]⟩ .LT 0 (.int 5)
        .OFTInteger (.int 5) rfl (Or.inl (by decide)) (by decide)
        rfl).2.1⟩

/-- C1 counterexample: a row whose precomputed bbox fails the spatial
envelope test but which passes the attribute constraints is NOT skipped —
the WKB loop of GetNextRawFeature produces (fully decodes) it — refuting
"a row that fails either test is skipped: only rows passing both are
fully decoded". -/
theorem C1_counterexample :
    spatialSkipWKB c1FilterEnv true c1Row = true ∧
    SkipToNextFeatureDueToAttributeFilter 1 true 0 c1Constraints
      c1Row.cells = false ∧
    produceAllWKB c1FilterEnv true 1 true c1Constraints 0 [c1Row] =
      [(0, c1Row)] := by
  decide

/-- C1 (amended): while a spatial filter and attribute constraints are
both active, the WKB batch loop applies the spatial envelope test first
(envelope from the non-null precomputed bbox quadruple if present, else
from the partial WKB parse) and consults the attribute constraints only
for rows that fail it: a row is skipped if and only if it fails the
spatial test AND fails the attribute constraints; every other row is
fully decoded. -/
theorem C1_amended_skip_iff_fails_both (filterEnv : Env) (hasBBox : Bool)
    (fieldCount : Int) (fidEmpty : Bool) (cons : List Constraint)
    (idx : Int) (rows : List FilterRow) (h : cons ≠ []) :
    produceAllWKB filterEnv hasBBox fieldCount fidEmpty cons idx rows =
      amendedSurvivorsWKB filterEnv hasBBox fieldCount fidEmpty cons idx
        rows := by
  induction rows generalizing idx with
  | nil => rfl
  | cons r rest ih =>
    have hne : cons.isEmpty = false := by
      cases cons
      · exact absurd rfl h
      · rfl
    simp only [produceAllWKB, amendedSurvivorsWKB, gnrfSkipsRow, hne,
      Bool.false_or, ih]

/-- Witness for C1 (amended) at the concrete one-row batch of the
counterexample. -/
theorem C1_amended_witness :
    c1Constraints ≠ [] ∧
    produceAllWKB c1FilterEnv true 1 true c1Constraints 0 [c1Row] =
      amendedSurvivorsWKB c1FilterEnv true 1 true c1Constraints 0 [c1Row]
    :=
  ⟨by decide,
    C1_amended_skip_iff_fails_both c1FilterEnv true 1 true c1Constraints 0
      [c1Row] (by decide)⟩

/-- C2 counterexample: under the filter `name != 'a'`, the null-valued
row 2 is skipped by the attribute pushdown (a null value fails every
comparison constraint), so iteration does not yield rows 2 and 3 as the
claim states. -/
theorem C2_counterexample :
    SkipToNextFeatureDueToAttributeFilter 1 true 1 c2Constraints
      [ArrowCell.null] = true ∧
    c2Produced.map Prod.fst ≠ [1, 2] := by
  decide

/-- C2 (amended): for the 3-row batch (name values "a", null, "c") under
the filter `name != 'a'`, iteration yields exactly row 3, decoded with
name "c" and its point coordinates; the "a" row fails the comparison and
the null row is skipped because null fails any comparison constraint. -/
theorem C2_amended_only_third_row_survives :
    c2Produced = [(2, c2Row3)] ∧
    c2Produced.map (fun p => readFeatureNamePoint p.2) =
      [(some "c", some ((3 : Rat), (30 : Rat)))] := by
  decide

/-- Lookup on a freshly extended extent map finds the new entry. -/
theorem lookupExtent_cons_self (m : List (Int × Env)) (i : Int) (e : Env) :
    lookupExtent ((i, e) :: m) i = some e := by
  simp [lookupExtent, List.find?]

/-- C7: once an extent has been computed for a geometry field it is
stored in the per-geometry-field cache; later requests return the cached
value with the state unchanged; changing the attribute or the spatial
filter neither clears the cache nor changes the computed extent, the
computation iterating all rows of all batches regardless of the active
filters. -/
theorem C7_extent_cached_and_filter_independent (s : ArrowLayerState)
    (i : Int) (e : Env) (lf : LayerFields) (expr : Option SwqExpr)
    (g : OEnv) (h : (GetExtent s i).1 = some e) :
    (lookupExtent s.mapExtents i = none →
      lookupExtent s.metadataExtents i = none →
      lookupExtent ((GetExtent s i).2).mapExtents i = some e) ∧
    GetExtent ((GetExtent s i).2) i = (some e, (GetExtent s i).2) ∧
    (SetAttributeFilter ((GetExtent s i).2) lf expr).mapExtents =
      ((GetExtent s i).2).mapExtents ∧
    (SetSpatialFilter ((GetExtent s i).2) g).mapExtents =
      ((GetExtent s i).2).mapExtents ∧
    (GetExtent (SetAttributeFilter ((GetExtent s i).2) lf expr) i).1 =
      some e ∧
    (GetExtent (SetSpatialFilter ((GetExtent s i).2) g) i).1 = some e ∧
    (SetAttributeFilter s lf expr).computeExtent i = s.computeExtent i ∧
    (SetSpatialFilter s g).computeExtent i = s.computeExtent i := by
  have hAttrFast : ∀ s2 : ArrowLayerState,
      FastGetExtent (SetAttributeFilter s2 lf expr) i = FastGetExtent s2 i :=
    fun _ => rfl
  have hSpatFast : ∀ s2 : ArrowLayerState,
      FastGetExtent (SetSpatialFilter s2 g) i = FastGetExtent s2 i :=
    fun _ => rfl
  have getfast : ∀ (s2 : ArrowLayerState) (e2 : Env),
      FastGetExtent s2 i = some e2 → GetExtent s2 i = (some e2, s2) := by
    intro s2 e2 hf2
    simp [GetExtent, hf2]
  have hFast2 : FastGetExtent ((GetExtent s i).2) i = some e := by
    cases hf : FastGetExtent s i with
    | some e0 =>
      have hs : GetExtent s i = (some e0, s) := by
        simp [GetExtent, hf]
      rw [hs] at h ⊢
      simpa [hf] using h
    | none =>
      cases hc : s.computeExtent i with
      | none =>
        have hs : GetExtent s i = (none, s) := by
          simp [GetExtent, hf, hc]
        rw [hs] at h
        exact absurd h (by simp)
      | some e0 =>
        have hs : GetExtent s i =
            (some e0, { s with mapExtents := (i, e0) :: s.mapExtents }) := by
          simp [GetExtent, hf, hc]
        rw [hs] at h ⊢
        have he : e0 = e := by simpa using h
        subst he
        simp [FastGetExtent, lookupExtent_cons_self]
  refine ⟨?_, ?_, rfl, rfl, ?_, ?_, rfl, rfl⟩
  · intro h1 h2
    have hf : FastGetExtent s i = none := by
      simp [FastGetExtent, h1, h2]
    cases hc : s.computeExtent i with
    | none =>
      have hs : GetExtent s i = (none, s) := by
        simp [GetExtent, hf, hc]
      rw [hs] at h
      exact absurd h (by simp)
    | some e0 =>
      have hs : GetExtent s i =
          (some e0, { s with mapExtents := (i, e0) :: s.mapExtents }) := by
        simp [GetExtent, hf, hc]
      rw [hs] at h ⊢
      have he : e0 = e := by simpa using h
      subst he
      exact lookupExtent_cons_self s.mapExtents i e0
  · exact getfast _ _ hFast2
  · rw [getfast _ _ ((hAttrFast _).trans hFast2)]
  · rw [getfast _ _ ((hSpatFast _).trans hFast2)]

/-- Witness for C7: a one-field layer holding one multipolygon row with
a single triangle-like ring; the computed extent is cached and survives
both filter changes. -/
theorem C7_witness :
    (GetExtent
        { geomColumns :=
            [[some [[[((0 : Rat), (0 : Rat)), ((2 : Rat), (3 : Rat))]]]]] }
        0).1 = some ⟨0, 2, 0, 3⟩ ∧
    (GetExtent
        (SetAttributeFilter
          ((GetExtent
              { geomColumns :=
                  [[some [[[((0 : Rat), (0 : Rat)),
                    ((2 : Rat), (3 : Rat))]]]]] }
              0).2)
          c2Fields none)
        0).1 = some ⟨0, 2, 0, 3⟩ :=
  ⟨by decide,
    (C7_extent_cached_and_filter_independent
        { geomColumns :=
            [[some [[[((0 : Rat), (0 : Rat)), ((2 : Rat), (3 : Rat))]]]]] }
        0 ⟨0, 2, 0, 3⟩ c2Fields none none (by decide)).2.2.2.2.1⟩

/-- Grow keeps the size, makes room for the requested bytes, and never
lets the capacity exceed MAX_SIZE_SINT32. -/
theorem Grow_spec (b b2 : AppendBufferState) (item : Nat) (hinv : b.inv)
    (h : Grow b item = some b2) :
    b2.nSize = b.nSize ∧ b.nSize + item ≤ b2.nCapacity ∧
      b2.nCapacity ≤ MAX_SIZE_SINT32 := by
  have hM : MAX_SIZE_SINT32 = 2147483647 := by norm_num [MAX_SIZE_SINT32]
  obtain ⟨hsc, hcM⟩ := hinv
  unfold Grow at h
  split at h
  · exact absurd h (by simp)
  · rename_i hle
    rw [hM] at hle hcM
    injection h with h
    subst h
    refine ⟨rfl, ?_, ?_⟩
    · simp only [Nat.min_def]
      split <;> split <;> simp_all <;> omega
    · simp only [Nat.min_def]
      split <;> split <;> simp_all <;> omega

/-- An append that would push the total size past MAX_SIZE_SINT32 fails. -/
theorem GetPtrForNewBytes_too_large (b : AppendBufferState) (item : Nat)
    (hinv : b.inv) (h : b.nSize + item > MAX_SIZE_SINT32) :
    GetPtrForNewBytes b item = none := by
  have hM : MAX_SIZE_SINT32 = 2147483647 := by norm_num [MAX_SIZE_SINT32]
  obtain ⟨hsc, hcM⟩ := hinv
  unfold GetPtrForNewBytes Grow
  rw [hM] at h hcM
  have h1 : b.nSize + item > b.nCapacity := by omega
  have h2 : item > MAX_SIZE_SINT32 - b.nSize := by rw [hM]; omega
  simp [h1, h2]

/-- A successful append preserves the size/capacity invariant. -/
theorem GetPtrForNewBytes_inv (b b2 : AppendBufferState) (item : Nat)
    (hinv : b.inv) (h : GetPtrForNewBytes b item = some b2) : b2.inv := by
  unfold GetPtrForNewBytes at h
  split at h
  · cases hg : Grow b item with
    | none => rw [hg] at h; exact absurd h (by simp)
    | some b3 =>
      rw [hg] at h
      obtain ⟨h1, h2, h3⟩ := Grow_spec b b3 item hinv hg
      injection h with h
      subst h
      exact ⟨by simp [h1] at h2 ⊢; omega, h3⟩
  · rename_i hle
    obtain ⟨hsc, hcM⟩ := hinv
    injection h with h
    subst h
    exact ⟨by simp; omega, hcM⟩

/-- A bad WKT cell anywhere in the batch aborts the whole translation. -/
theorem translateRows_bad (cells : List WKTCell) :
    ∀ (b : AppendBufferState) (offsets : List Nat),
      WKTCell.bad ∈ cells → translateRows b offsets cells = none := by
  induction cells with
  | nil => intro b offsets hmem; exact absurd hmem (by simp)
  | cons c rest ih =>
    intro b offsets hmem
    cases c with
    | null =>
      have : WKTCell.bad ∈ rest := by simpa using hmem
      simp [translateRows, TranslateWKT, ih _ _ this]
    | bad => simp [translateRows, TranslateWKT]
    | geom n =>
      have hmem2 : WKTCell.bad ∈ rest := by simpa using hmem
      cases hg : GetPtrForNewBytes b n with
      | none => simp [translateRows, TranslateWKT, hg]
      | some b2 => simp [translateRows, TranslateWKT, hg, ih _ _ hmem2]

/-- A successful translation run starting from an invariant-satisfying
buffer ends in an invariant-satisfying buffer. -/
theorem translateRows_inv (cells : List WKTCell) :
    ∀ (b : AppendBufferState) (offsets offs : List Nat)
      (bfin : AppendBufferState), b.inv →
      translateRows b offsets cells = some (offs, bfin) → bfin.inv := by
  induction cells with
  | nil =>
    intro b offsets offs bfin hinv h
    unfold translateRows at h
    injection h with h
    rw [show bfin = b from congrArg Prod.snd h.symm]
    exact hinv
  | cons c rest ih =>
    intro b offsets offs bfin hinv h
    unfold translateRows at h
    cases ht : TranslateWKT b c with
    | none => rw [ht] at h; exact absurd h (by simp)
    | some b2 =>
      rw [ht] at h
      have hinv2 : b2.inv := by
        cases c with
        | null => unfold TranslateWKT at ht; injection ht with ht; subst ht; exact hinv
        | bad => exact absurd ht (by simp [TranslateWKT])
        | geom n => exact GetPtrForNewBytes_inv b b2 n hinv ht
      exact ih b2 _ offs bfin hinv2 h

/-- C9: the shared WKT→WKB output buffer's size and capacity never exceed
the maximum signed 32-bit offset: Grow doubles the capacity capped at
that maximum and fails when the appended item would push the size past
it; any translation or append failure aborts the whole array build, so no
partial array is ever returned; a successful build ends within the
bound. -/
theorem C9_append_buffer_bounded_no_partial :
    (∀ (b b2 : AppendBufferState) (item : Nat), b.inv →
      Grow b item = some b2 →
      b2.nSize = b.nSize ∧ b.nSize + item ≤ b2.nCapacity ∧
        b2.nCapacity ≤ MAX_SIZE_SINT32) ∧
    (∀ (b : AppendBufferState) (item : Nat), b.inv →
      b.nSize + item > MAX_SIZE_SINT32 →
      GetPtrForNewBytes b item = none) ∧
    (∀ (b b2 : AppendBufferState) (item : Nat), b.inv →
      GetPtrForNewBytes b item = some b2 →
      b2.nSize ≤ b2.nCapacity ∧ b2.nCapacity ≤ MAX_SIZE_SINT32) ∧
    (∀ cells : List WKTCell, WKTCell.bad ∈ cells →
      CreateWKBArrayFromWKTArray cells = none) ∧
    (∀ (cells : List WKTCell) (offs : List Nat)
      (bfin : AppendBufferState),
      CreateWKBArrayFromWKTArray cells = some (offs, bfin) →
      bfin.nSize ≤ bfin.nCapacity ∧
        bfin.nCapacity ≤ MAX_SIZE_SINT32) := by
  refine ⟨Grow_spec, GetPtrForNewBytes_too_large,
    fun b b2 item hinv h => GetPtrForNewBytes_inv b b2 item hinv h,
    fun cells hmem => translateRows_bad cells _ _ hmem, ?_⟩
  intro cells offs bfin h
  have hinv0 :
      ({ nSize := 0,
         nCapacity := min MAX_SIZE_SINT32 (100 * cells.length) } :
        AppendBufferState).inv :=
    ⟨Nat.zero_le _, Nat.min_le_left _ _⟩
  exact translateRows_inv cells _ [] offs bfin hinv0 h

/-- Witness for C9: growing a 100-byte-capacity buffer by 300 bytes, and
the aborted build of a batch containing an unparsable WKT cell. -/
theorem C9_witness :
    ((⟨0, 100⟩ : AppendBufferState).inv ∧
      Grow ⟨0, 100⟩ 300 = some ⟨0, 300⟩) ∧
    WKTCell.bad ∈ [WKTCell.geom 3, WKTCell.bad] ∧
    CreateWKBArrayFromWKTArray [WKTCell.geom 3, WKTCell.bad] = none :=
  ⟨⟨by decide, by decide⟩, by decide,
    C9_append_buffer_bounded_no_partial.2.2.2.1
      [WKTCell.geom 3, WKTCell.bad] (by decide)⟩

/-! ## Envelope-union algebra for the extent equivalence (C4) -/

/-- none is a right identity of the envelope union. -/
theorem OEnv.union_none_right (a : OEnv) : OEnv.union a none = a := by
  cases a <;> rfl

/-- Union of initialized envelopes is associative. -/
theorem Env.union_assoc3 (a b c : Env) :
    (a.union b).union c = a.union (b.union c) := by
  simp [Env.union, min_assoc, max_assoc]

/-- The envelope union is associative. -/
theorem OEnv.union_assoc (a b c : OEnv) :
    OEnv.union (OEnv.union a b) c = OEnv.union a (OEnv.union b c) := by
  cases a <;> cases b <;> cases c <;> simp [OEnv.union, Env.union_assoc3]

/-- Merging a point is union with its degenerate envelope. -/
theorem Env.mergePt_eq_union (a : OEnv) (p : Pt) :
    Env.mergePt a p = OEnv.union a (some (ptEnv p)) := by
  cases a <;> rfl

/-- Merging a coordinate run is union with the run's envelope. -/
theorem Env.mergeRing_eq_union (l : List Pt) :
    ∀ a : OEnv, Env.mergeRing a l = OEnv.union a (ringEnv l) := by
  induction l with
  | nil => intro a; exact (OEnv.union_none_right a).symm
  | cons p rest ih =>
    intro a
    have h2 : ringEnv (p :: rest) =
        OEnv.union (some (ptEnv p)) (ringEnv rest) := by
      show Env.mergeRing (some (ptEnv p)) rest = _
      exact ih (some (ptEnv p))
    show Env.mergeRing (Env.mergePt a p) rest = _
    rw [ih (Env.mergePt a p), Env.mergePt_eq_union, h2, OEnv.union_assoc]

/-- The envelope of a run decomposes on cons. -/
theorem ringEnv_cons (p : Pt) (l : List Pt) :
    ringEnv (p :: l) = OEnv.union (some (ptEnv p)) (ringEnv l) := by
  show Env.mergeRing (some (ptEnv p)) l = _
  exact Env.mergeRing_eq_union l (some (ptEnv p))

/-- A union-shaped foldl factors through its none-started run. -/
theorem foldl_union_shift {α : Type} (f : α → OEnv) (l : List α) :
    ∀ a : OEnv, l.foldl (fun acc x => OEnv.union acc (f x)) a =
      OEnv.union a (l.foldl (fun acc x => OEnv.union acc (f x)) none) := by
  induction l with
  | nil => intro a; exact (OEnv.union_none_right a).symm
  | cons x rest ih =>
    intro a
    show rest.foldl _ (OEnv.union a (f x)) =
      OEnv.union a (rest.foldl _ (OEnv.union none (f x)))
    rw [ih (OEnv.union a (f x)), ih (OEnv.union none (f x))]
    show OEnv.union (OEnv.union a (f x)) _ =
      OEnv.union a (OEnv.union (f x) _)
    exact OEnv.union_assoc a (f x) _

/-- Union-shaped foldls agree when their contribution functions agree on
the list's members. -/
theorem foldl_union_congr {α : Type} (f g : α → OEnv) (l : List α)
    (h : ∀ x ∈ l, f x = g x) :
    ∀ a : OEnv, l.foldl (fun acc x => OEnv.union acc (f x)) a =
      l.foldl (fun acc x => OEnv.union acc (g x)) a := by
  induction l with
  | nil => intro a; rfl
  | cons x rest ih =>
    intro a
    show rest.foldl _ (OEnv.union a (f x)) =
      rest.foldl _ (OEnv.union a (g x))
    rw [h x (by simp), ih (fun y hy => h y (by simp [hy]))]

/-- A point inside an envelope is absorbed by union. -/
theorem Env.union_ptEnv_contained (e : Env) (p : Pt)
    (h : e.containsPt p = true) : e.union (ptEnv p) = e := by
  simp only [Env.containsPt, Bool.and_eq_true, decide_eq_true_eq] at h
  obtain ⟨⟨⟨h1, h2⟩, h3⟩, h4⟩ := h
  simp [Env.union, ptEnv, min_eq_left, max_eq_left, h1, h2, h3, h4]

/-- A run all of whose points lie inside an envelope is absorbed by
union with it. -/
theorem union_ringEnv_contained (e0 : Env) (r : Ring)
    (h : ∀ p ∈ r, e0.containsPt p = true) :
    OEnv.union (some e0) (ringEnv r) = some e0 := by
  induction r with
  | nil => rfl
  | cons p rest ih =>
    have hp : e0.containsPt p = true := h p (by simp)
    rw [ringEnv_cons, ← OEnv.union_assoc,
      show OEnv.union (some e0) (some (ptEnv p)) = some e0 by
        show some (e0.union (ptEnv p)) = some e0
        rw [Env.union_ptEnv_contained e0 p hp]]
    exact ih fun q hq => h q (by simp [hq])

/-- A hole ring inside the exterior ring's envelope is absorbed. -/
theorem union_ringEnv_within (r0 r : Ring) (h : ringWithin r0 r = true) :
    OEnv.union (ringEnv r0) (ringEnv r) = ringEnv r0 := by
  cases he : ringEnv r0 with
  | none =>
    cases r with
    | nil => rfl
    | cons p rest => simp [ringWithin, he] at h
  | some e0 =>
    refine union_ringEnv_contained e0 r fun p hp => ?_
    have := List.all_eq_true.mp h p hp
    simpa [he] using this

/-- partFullEnv decomposes on cons. -/
theorem partFullEnv_cons (r : Ring) (rest : List Ring) :
    partFullEnv (r :: rest) =
      OEnv.union (ringEnv r) (partFullEnv rest) := by
  show rest.foldl _ (OEnv.union none (ringEnv r)) = _
  exact foldl_union_shift ringEnv rest (OEnv.union none (ringEnv r))

/-- cellFastEnv decomposes on cons. -/
theorem cellFastEnv_cons (part : Part) (rest : List Part) :
    cellFastEnv (part :: rest) =
      OEnv.union (partFastEnv part) (cellFastEnv rest) := by
  show rest.foldl _ (OEnv.union none (partFastEnv part)) = _
  exact foldl_union_shift partFastEnv rest _

/-- The full per-part fold is union with the part's all-rings envelope. -/
theorem fullPartStep_eq_union (part : Part) :
    ∀ a : OEnv, fullPartStep a part = OEnv.union a (partFullEnv part) := by
  induction part with
  | nil => intro a; exact (OEnv.union_none_right a).symm
  | cons r rest ih =>
    intro a
    show rest.foldl Env.mergeRing (Env.mergeRing a r) = _
    rw [show rest.foldl Env.mergeRing (Env.mergeRing a r) =
        fullPartStep (Env.mergeRing a r) rest from rfl,
      ih (Env.mergeRing a r), Env.mergeRing_eq_union, partFullEnv_cons,
      OEnv.union_assoc]

/-- The fast per-part step is union with the part's first-ring
envelope. -/
theorem fastPartStep_eq_union (a : OEnv) (part : Part) :
    fastPartStep a part = OEnv.union a (partFastEnv part) := by
  cases part with
  | nil => exact (OEnv.union_none_right a).symm
  | cons r0 rs => exact Env.mergeRing_eq_union r0 a

/-- The fast cell merge is union with the cell's fast envelope. -/
theorem fastMergeCell_eq_union (cell : MpCell) :
    ∀ a : OEnv, fastMergeCell a cell = OEnv.union a (cellFastEnv cell) := by
  induction cell with
  | nil => intro a; exact (OEnv.union_none_right a).symm
  | cons part rest ih =>
    intro a
    show rest.foldl fastPartStep (fastPartStep a part) = _
    rw [show rest.foldl fastPartStep (fastPartStep a part) =
        fastMergeCell (fastPartStep a part) rest from rfl,
      ih (fastPartStep a part), fastPartStep_eq_union, cellFastEnv_cons,
      OEnv.union_assoc]

/-- The full cell envelope in union form. -/
theorem fullCellEnv_eq_union_form (cell : MpCell) :
    fullCellEnv cell =
      cell.foldl (fun a part => OEnv.union a (partFullEnv part)) none := by
  have aux : ∀ (l : List Part) (a : OEnv),
      l.foldl fullPartStep a =
        l.foldl (fun acc part => OEnv.union acc (partFullEnv part)) a := by
    intro l
    induction l with
    | nil => intro a; rfl
    | cons part rest ih =>
      intro a
      show rest.foldl fullPartStep (fullPartStep a part) = _
      rw [fullPartStep_eq_union part a, ih]
      rfl
  exact aux cell none

/-- The all-rings envelopes of the hole rings are absorbed by the
exterior ring's envelope. -/
theorem union_partFull_holes (r0 : Ring) (rest : List Ring)
    (hall : ∀ r ∈ rest, ringWithin r0 r = true) :
    OEnv.union (ringEnv r0) (partFullEnv rest) = ringEnv r0 := by
  induction rest with
  | nil => exact OEnv.union_none_right _
  | cons r rest2 ih =>
    rw [partFullEnv_cons, ← OEnv.union_assoc,
      union_ringEnv_within r0 r (hall r (by simp))]
    exact ih fun q hq => hall q (by simp [hq])

/-- For a part whose hole rings lie within the exterior ring, the
first-ring envelope equals the all-rings envelope. -/
theorem partFast_eq_partFull (part : Part)
    (h : partHolesInside part = true) :
    partFastEnv part = partFullEnv part := by
  cases part with
  | nil => rfl
  | cons r0 rest =>
    have hall : ∀ r ∈ rest, ringWithin r0 r = true := by
      simpa [partHolesInside] using fun r hr =>
        List.all_eq_true.mp (by simpa [partHolesInside] using h) r hr
    show ringEnv r0 = partFullEnv (r0 :: rest)
    rw [partFullEnv_cons, union_partFull_holes r0 rest hall]

/-- For a valid multipolygon cell, the fast (first-ring) envelope equals
the full envelope. -/
theorem cellFast_eq_cellFull (cell : MpCell)
    (h : cellHolesInside cell = true) :
    cellFastEnv cell = fullCellEnv cell := by
  rw [fullCellEnv_eq_union_form]
  exact foldl_union_congr partFastEnv partFullEnv cell
    (fun part hp =>
      partFast_eq_partFull part (List.all_eq_true.mp h part hp))
    none

/-- C4: over a batch of GeoArrow-multipolygon (or, via the
outer-ring-only WKB bounding box parse, WKB) geometries whose hole rings
lie within their exterior rings, the fast extent pass equals the extent
obtained by fully decoding every geometry (visiting all rings) and
merging the per-geometry envelopes. -/
theorem C4_fast_extent_equals_full_extent (rows : List (Option MpCell))
    (h : batchHolesInside rows = true) :
    fastExtentBatch rows = fullExtentBatch rows ∧
    wkbFastExtentBatch rows = fullExtentBatch rows := by
  have aux : ∀ (l : List (Option MpCell)), batchHolesInside l = true →
      ∀ a : OEnv,
        l.foldl fastRowStep a = l.foldl fullRowStep a ∧
        l.foldl wkbRowStep a = l.foldl fullRowStep a := by
    intro l
    induction l with
    | nil => intro _ a; exact ⟨rfl, rfl⟩
    | cons row rest ih =>
      intro hl a
      have hrest : batchHolesInside rest = true := by
        refine List.all_eq_true.mpr fun r hr => ?_
        exact List.all_eq_true.mp hl r (List.mem_cons_of_mem _ hr)
      have hstep : fastRowStep a row = fullRowStep a row ∧
          wkbRowStep a row = fullRowStep a row := by
        cases row with
        | none => exact ⟨rfl, rfl⟩
        | some cell =>
          have hc : cellHolesInside cell = true := by
            simpa using
              List.all_eq_true.mp hl (some cell) (List.mem_cons_self _ _)
          constructor
          · show fastMergeCell a cell = OEnv.union a (fullCellEnv cell)
            rw [fastMergeCell_eq_union, cellFast_eq_cellFull cell hc]
          · show OEnv.union a (OGRWKBGetBoundingBox cell) =
              OEnv.union a (fullCellEnv cell)
            rw [show OGRWKBGetBoundingBox cell = cellFastEnv cell by
                show fastMergeCell none cell = _
                rw [fastMergeCell_eq_union]
                rfl,
              cellFast_eq_cellFull cell hc]
      constructor
      · show rest.foldl fastRowStep (fastRowStep a row) = _
        rw [hstep.1]
        exact (ih hrest (fullRowStep a row)).1
      · show rest.foldl wkbRowStep (wkbRowStep a row) = _
        rw [hstep.2]
        exact (ih hrest (fullRowStep a row)).2
  exact aux rows h none

/-- Witness for C4: a batch with one null row and one multipolygon of a
single part whose hole ring lies inside the exterior ring. -/
theorem C4_witness :
    batchHolesInside
        [some [[[((0 : Rat), (0 : Rat)), ((4 : Rat), (4 : Rat))],
          [((1 : Rat), (1 : Rat)), ((2 : Rat), (2 : Rat))]]], none] =
      true ∧
    fastExtentBatch
        [some [[[((0 : Rat), (0 : Rat)), ((4 : Rat), (4 : Rat))],
          [((1 : Rat), (1 : Rat)), ((2 : Rat), (2 : Rat))]]], none] =
      fullExtentBatch
        [some [[[((0 : Rat), (0 : Rat)), ((4 : Rat), (4 : Rat))],
          [((1 : Rat), (1 : Rat)), ((2 : Rat), (2 : Rat))]]], none] :=
  ⟨by decide,
    (C4_fast_extent_equals_full_extent
        [some [[[((0 : Rat), (0 : Rat)), ((4 : Rat), (4 : Rat))],
          [((1 : Rat), (1 : Rat)), ((2 : Rat), (2 : Rat))]]], none]
        (by decide)).1⟩

end OGRArrow
